import Mathlib

/- Verification of the color-analysis core of google-sheet-color-analyzer.

   Shallow embedding of `src/analyzer.py` and `src/utils.py`.  Python floats
   are modelled by exact rationals; the value `sqrt(b) + p` produced by
   `compute_weighted_distance` (a square root plus an additive penalty) is
   represented by the pair `WDist b p`, and the float comparison `dist <
   min_dist` is decided exactly on those pairs by `wdistLt`.  External
   library calls (`requests.get`/`cv2.imdecode`, `cv2.resize`, `rembg`,
   `cv2.kmeans`) are passed to the pipeline as oracle parameters; the
   fixed-point formula used by `cv2.cvtColor(..., COLOR_BGR2HSV)` for the
   saturation and value channels of an 8-bit pixel is embedded directly
   (`hsvS`, `hsvV`). -/

namespace ColorAnalyzer

/-- A pixel: three integer colour channels (the decoded image stores them in
BGR order, the matcher receives them in RGB order). -/
abbrev Pix := ℤ × ℤ × ℤ

/-- A cluster centroid as returned by the clustering oracle: three float
(modelled as rational) channels. -/
abbrev QPix := ℚ × ℚ × ℚ

/-- A decoded image: a grid of pixels, rows of columns. -/
abbrev Image := List (List Pix)

/-- An RGBA pixel produced by the background-removal oracle. -/
abbrev RGBA := ℤ × ℤ × ℤ × ℤ

/-- An RGBA image produced by the background-removal oracle. -/
abbrev RGBAImage := List (List RGBA)

/-- `red_keywords` of `compute_weighted_distance`: names of warm colours whose
red channel receives the 1.5 weight boost. -/
def red_keywords : List String :=
  ["レッド", "ワインレッド", "バーガンディ", "ピンク", "ローズ", "フクシア"]

/-- `gray_keywords` of `compute_weighted_distance`: neutral colour names that
receive the +30 penalty against vivid bright pixels. -/
def gray_keywords : List String :=
  ["ブラック", "チャコール", "スモーク", "グレー", "ライトグレー", "シルバー"]

/-- Does `kw` start with the characters of `s`? (helper for substring tests,
Python's `kw in color_name`). -/
def seqStarts : List Char → List Char → Bool
  | [], _ => true
  | _ :: _, [] => false
  | a :: as, b :: bs => a == b && seqStarts as bs

/-- Does `kw` occur as a contiguous subsequence of `s`? -/
def seqContains : List Char → List Char → Bool
  | kw, [] => kw.isEmpty
  | kw, c :: rest => seqStarts kw (c :: rest) || seqContains kw rest

/-- Python's substring test `kw in s`. -/
def substrOf (kw s : String) : Bool := seqContains kw.toList s.toList

/-- `np.uint8` conversion: wrap an integer channel into 0..255. -/
def toU8 (z : ℤ) : ℕ := (z % 256).toNat

/-- The V (value) channel of `cv2.cvtColor(..., COLOR_BGR2HSV)` on an 8-bit
pixel: the maximum channel. -/
def hsvV (p : Pix) : ℕ := max (toU8 p.1) (max (toU8 p.2.1) (toU8 p.2.2))

/-- The minimum channel of a pixel (helper for the saturation formula). -/
def hsvMin (p : Pix) : ℕ := min (toU8 p.1) (min (toU8 p.2.1) (toU8 p.2.2))

/-- OpenCV's fixed-point division table for 8-bit HSV saturation:
`sdiv_table[v] = cvRound((255 << 12) / v)` with `sdiv_table[0] = 0`.
(No value of `v` in 1..255 makes `(255 << 12) / v` a half-integer, so
round-to-nearest is unambiguous.) -/
def sdivTab (v : ℕ) : ℕ := if v = 0 then 0 else (2 * 1044480 + v) / (2 * v)

/-- The S (saturation) channel of `cv2.cvtColor(..., COLOR_BGR2HSV)` on an
8-bit pixel: `(diff * sdiv_table[v] + (1 << 11)) >> 12` where `diff = v - min`. -/
def hsvS (p : Pix) : ℕ :=
  let v := hsvV p
  let diff := v - hsvMin p
  (diff * sdivTab v + 2048) / 4096

/-- The result of `compute_weighted_distance`: the pair `⟨b, p⟩` denotes the
real number `Real.sqrt b + p` (the float `base_dist` is a square root, and the
gray penalty is added to it after the square root is taken). -/
structure WDist where
  baseSq : ℚ
  penalty : ℚ
deriving DecidableEq

/-- Decide `Real.sqrt a + p < Real.sqrt b + q` for rationals `a b ≥ 0` by case
analysis on the sign of `q - p` and squaring twice. -/
def sqrtAddLtB (a p b q : ℚ) : Bool :=
  if q - p < 0 then
    decide (0 < b - a - (q - p) ^ 2) &&
      decide (4 * (q - p) ^ 2 * a < (b - a - (q - p) ^ 2) ^ 2)
  else
    decide (a - b - (q - p) ^ 2 < 0) ||
      decide ((a - b - (q - p) ^ 2) ^ 2 < 4 * (q - p) ^ 2 * b)

/-- The float comparison `dist < min_dist` of `match_color_to_category`,
decided exactly on the `WDist` representation. -/
def wdistLt (x y : WDist) : Bool := sqrtAddLtB x.baseSq x.penalty y.baseSq y.penalty

/-- `d` denotes exactly the rational value `q`, i.e. `Real.sqrt d.baseSq +
d.penalty = q`: equivalently the square root is the nonnegative number
`q - d.penalty`. -/
def WDist.valEq (d : WDist) (q : ℚ) : Prop :=
  d.penalty ≤ q ∧ d.baseSq = (q - d.penalty) ^ 2

instance (d : WDist) (q : ℚ) : Decidable (d.valEq q) := by
  unfold WDist.valEq; infer_instance

/-- `ImageAnalyzer.compute_weighted_distance` (analyzer.py lines 39-63). -/
def compute_weighted_distance (rgb ref : Pix) (color_name : String) : WDist :=
  let wR : ℚ := if red_keywords.any (fun kw => substrOf kw color_name) then 1.5 else 1.0
  let dr : ℚ := ((rgb.1 : ℚ) - (ref.1 : ℚ)) * wR
  let dg : ℚ := (rgb.2.1 : ℚ) - (ref.2.1 : ℚ)
  let db : ℚ := (rgb.2.2 : ℚ) - (ref.2.2 : ℚ)
  let base_dist : WDist := ⟨dr * dr + dg * dg + db * db, 0⟩
  let s := hsvS rgb
  let v := hsvV rgb
  if 70 < s ∧ 80 < v then
    if gray_keywords.any (fun kw => substrOf kw color_name) then
      ⟨base_dist.baseSq, base_dist.penalty + 30⟩
    else base_dist
  else base_dist

/-- The `analysis` section of the YAML configuration: each key may be absent,
and `dict.get(key, default)` supplies the stated default. -/
structure AnalysisSettings where
  use_rembg : Option Bool := none
  image_download_timeout : Option ℕ := none
  resize_width : Option ℕ := none
  resize_height : Option ℕ := none
  pixel_filter_min : Option ℚ := none
  pixel_filter_max : Option ℚ := none
  kmeans_k : Option ℕ := none
deriving DecidableEq

/-- The YAML configuration handed to `ImageAnalyzer.__init__`: any section may
be absent. A category entry is `(name, (id, synonyms))`, a colour definition
is `(name, rgb-list)`. -/
structure Config where
  analysis : Option AnalysisSettings := none
  color_categories : Option (List (String × ℤ × List String)) := none
  color_definitions : Option (List (String × List ℤ)) := none
deriving DecidableEq

/-- `get_rgb_from_color_name` (utils.py lines 22-31): look the name up in
`color_definitions`; an absent or falsy (empty-list) entry yields the default
mid-gray `(128, 128, 128)`. -/
def get_rgb_from_color_name (color_name : String) (config : Config) : List ℤ :=
  let color_defs := config.color_definitions.getD []
  match color_defs.lookup color_name with
  | some rgb => if rgb = [] then [128, 128, 128] else rgb
  | none => [128, 128, 128]

/-- Read the first three components of a colour-definition list as a pixel
(well-formed configurations store exactly three channels; `tuple(rgb)` is
indexed at 0, 1, 2 by `compute_weighted_distance`). -/
def toPix3 (l : List ℤ) : Pix := (l.getD 0 0, l.getD 1 0, l.getD 2 0)

/-- The constructed `ImageAnalyzer` object: the fields assigned by
`__init__`. -/
structure ImageAnalyzer where
  config : Config
  analysis_config : AnalysisSettings
  color_categories : List (String × ℤ × List String)
  use_rembg : Bool
deriving DecidableEq

/-- `ImageAnalyzer.__init__` (analyzer.py lines 15-23).  `rembg_available`
models the module-level `REMBG_AVAILABLE` flag.  Construction is total: the
constructor performs no validation and cannot fail. -/
def ImageAnalyzer.init (config : Config) (rembg_available : Bool) : ImageAnalyzer :=
  let analysis_config := config.analysis.getD {}
  let cats := config.color_categories.getD []
  let use0 := analysis_config.use_rembg.getD false
  { config := config
    analysis_config := analysis_config
    color_categories := cats
    use_rembg := if use0 && !rembg_available then false else use0 }

/-- `dist < min_dist` where `min_dist` starts at `float("inf")` (`none`). -/
def ltMin (d : WDist) : Option WDist → Bool
  | none => true
  | some m => wdistLt d m

/-- The inner loop of `match_color_to_category`: fold the synonyms of one
category over the `(min_dist, best_cat)` accumulator. -/
def synLoop (cfg : Config) (rgb : Pix) (cat : String) :
    List String → Option WDist × Option String → Option WDist × Option String
  | [], acc => acc
  | cname :: rest, acc =>
    let ref_rgb := toPix3 (get_rgb_from_color_name cname cfg)
    let dist := compute_weighted_distance rgb ref_rgb cname
    synLoop cfg rgb cat rest (if ltMin dist acc.1 then (some dist, some cat) else acc)

/-- The outer loop of `match_color_to_category`: fold over the category
table. -/
def catLoop (cfg : Config) (rgb : Pix) :
    List (String × ℤ × List String) → Option WDist × Option String →
      Option WDist × Option String
  | [], acc => acc
  | e :: rest, acc => catLoop cfg rgb rest (synLoop cfg rgb e.1 e.2.2 acc)

/-- `ImageAnalyzer.match_color_to_category` (analyzer.py lines 65-76). -/
def match_color_to_category (A : ImageAnalyzer) (rgb_color : Pix) : Option String :=
  (catLoop A.config rgb_color A.color_categories (none, none)).2

/-- `cv2.cvtColor(..., COLOR_BGR2RGB)` on one pixel: reverse the channels. -/
def bgr2rgbPix (p : Pix) : Pix := (p.2.2, p.2.1, p.1)

/-- `np.mean(p)` over the three channels of one pixel. -/
def pixMean (p : Pix) : ℚ := ((p.1 : ℚ) + (p.2.1 : ℚ) + (p.2.2 : ℚ)) / 3

/-- The standard (non-rembg) preprocessing flow of `analyze` (analyzer.py
lines 154-186): resize (through the `rz` oracle standing for `cv2.resize`),
centre-crop with margin 30 when the resized image is strictly larger than
twice the margin in both directions, fall back to the full resized image if
the crop is empty, convert BGR to RGB, flatten, and keep the pixels whose mean
brightness lies strictly between the two thresholds. -/
def brightnessFiltered (A : ImageAnalyzer) (img : Image)
    (rz : Image → ℕ → ℕ → Image) : List Pix :=
  let resize_w := A.analysis_config.resize_width.getD 100
  let resize_h := A.analysis_config.resize_height.getD 100
  let resized := rz img resize_w resize_h
  let h := resized.length
  let w := (resized.headD []).length
  let margin := 30
  let center :=
    if 2 * margin < h ∧ 2 * margin < w then
      (List.take (h - 2 * margin) (List.drop margin resized)).map
        (fun row => List.take (w - 2 * margin) (List.drop margin row))
    else resized
  let center := if (center.map List.length).sum = 0 then resized else center
  let center_rgb := center.map (fun row => row.map bgr2rgbPix)
  let pix := center_rgb.flatten
  let p_min := A.analysis_config.pixel_filter_min.getD 20
  let p_max := A.analysis_config.pixel_filter_max.getD 230
  pix.filter (fun p => decide (p_min < pixMean p) && decide (pixMean p < p_max))

/-- The rembg preprocessing flow of `analyze` (analyzer.py lines 106-152):
downscale through the `rz` oracle if either dimension exceeds 500, run the
background-removal oracle (`remove_background`; `none` models a caught
exception), keep the pixels with alpha above 10, and drop the alpha channel;
no brightness filter is applied. -/
def rembgFiltered (img : Image) (rz : Image → ℕ → ℕ → Image)
    (rembg : Image → Option RGBAImage) : List Pix :=
  let h := img.length
  let w := (img.headD []).length
  let img2 := if 500 < h ∨ 500 < w then rz img 500 500 else img
  match rembg img2 with
  | some output_rgba =>
    let flat := output_rgba.flatten
    let valid_pixels := flat.filter (fun p => decide ((10 : ℤ) < p.2.2.2))
    if 0 < valid_pixels.length then valid_pixels.map (fun p => (p.1, p.2.1, p.2.2.1))
    else []
  | none => []

/-- `np.bincount` on the cluster labels: occurrence counts for 0..max. -/
def bincount (labels : List ℕ) : List ℕ :=
  match labels with
  | [] => []
  | _ :: _ => (List.range (labels.foldr max 0 + 1)).map (fun i => labels.count i)

/-- Tail of `np.argmax`: remaining list, best value, best index, next index. -/
def argmaxGo : List ℕ → ℕ → ℕ → ℕ → ℕ
  | [], _, bi, _ => bi
  | y :: rest, bv, bi, idx =>
    if bv < y then argmaxGo rest y idx (idx + 1) else argmaxGo rest bv bi (idx + 1)

/-- `np.argmax`: index of the first occurrence of the maximum; raises on an
empty array (`none`). -/
def argmaxFirst : List ℕ → Option ℕ
  | [] => none
  | x :: rest => some (argmaxGo rest x 0 1)

/-- Python's `int()` on a float: truncation toward zero. -/
def ratTrunc (q : ℚ) : ℤ := Int.tdiv q.num (q.den : ℤ)

/-- The dominant-colour selection of `analyze` (analyzer.py lines 199-204):
`np.bincount` the labels, `np.argmax` the counts (raising — `none` — on an
empty label array), index the centroid array (raising on a bad index) and
truncate the float centroid to integer RGB with `int()`. -/
def dominantOf (centers : List QPix) (labels : List ℕ) : Option Pix :=
  match argmaxFirst (bincount labels) with
  | none => none
  | some dom_idx =>
    match centers[dom_idx]? with
    | none => none
    | some dom_color => some (ratTrunc dom_color.1, ratTrunc dom_color.2.1, ratTrunc dom_color.2.2)

/-- The `try:` block of `analyze` (analyzer.py lines 197-215): run the
clustering oracle (`cv2.kmeans`; `none` models a raised exception), pick the
most populous cluster's centroid, truncate it to integer RGB, match it against
the category table and format the winning category's id.  Every failure path
(kmeans exception, `argmax` on an empty count array, centroid index out of
range, falsy match result, missing table key) is caught by the
`except` clause and yields "N/A". -/
def clusterAndMatch (A : ImageAnalyzer) (filtered : List Pix)
    (km : ℕ → List Pix → Option (List QPix × List ℕ)) : String :=
  let K := A.analysis_config.kmeans_k.getD 3
  match km K filtered with
  | none => "N/A"
  | some (centers, labels) =>
    match dominantOf centers labels with
    | none => "N/A"
    | some rgb_final =>
      match match_color_to_category A rgb_final with
      | none => "N/A"
      | some cat =>
        if cat = "" then "N/A"
        else
          match A.color_categories.lookup cat with
          | none => "N/A"
          | some pr => "=" ++ toString pr.1

/-- `ImageAnalyzer.analyze` (analyzer.py lines 97-215).  `fetched` is the
result of `download_image` (`none` models any fetch or decode failure, which
`download_image` converts to `None`); `rz`, `rembg` and `km` are the
`cv2.resize`, background-removal and `cv2.kmeans` oracles. -/
def ImageAnalyzer.analyze (A : ImageAnalyzer) (fetched : Option Image)
    (rz : Image → ℕ → ℕ → Image) (rembg : Image → Option RGBAImage)
    (km : ℕ → List Pix → Option (List QPix × List ℕ)) : String :=
  match fetched with
  | none => "N/A"
  | some img =>
    let filtered :=
      if A.use_rembg then rembgFiltered img rz rembg else brightnessFiltered A img rz
    if filtered.length < 10 then "N/A"
    else clusterAndMatch A filtered km

/-- The weighted squared Euclidean distance described by the specification:
`(wR·ΔR)² + ΔG² + ΔB²` with `wR = 1.5` for warm-keyword names and `1.0`
otherwise (spec §4.4 step 1).  Used to compare `compute_weighted_distance`
against the spec's description. -/
def weightedEuclidSq (rgb ref : Pix) (color_name : String) : ℚ :=
  let wR : ℚ := if red_keywords.any (fun kw => substrOf kw color_name) then 1.5 else 1.0
  let dr : ℚ := ((rgb.1 : ℚ) - (ref.1 : ℚ)) * wR
  let dg : ℚ := (rgb.2.1 : ℚ) - (ref.2.1 : ℚ)
  let db : ℚ := (rgb.2.2 : ℚ) - (ref.2.2 : ℚ)
  dr * dr + dg * dg + db * db

/-- The `(category, synonym)` pairs of a category table, in iteration order
(the order in which `match_color_to_category` visits them). -/
def pairsOf (T : List (String × ℤ × List String)) : List (String × String) :=
  T.flatMap (fun e => e.2.2.map (fun cname => (e.1, cname)))

/-- The distance `match_color_to_category` computes for one
`(category, synonym)` pair. -/
def pairDist (cfg : Config) (rgb : Pix) (pr : String × String) : WDist :=
  compute_weighted_distance rgb (toPix3 (get_rgb_from_color_name pr.2 cfg)) pr.2

/-- The two nested loops of `match_color_to_category`, linearised over the
flattened `(category, synonym)` pair list. -/
def pairLoop (cfg : Config) (rgb : Pix) :
    List (String × String) → Option WDist × Option String →
      Option WDist × Option String
  | [], acc => acc
  | pr :: rest, acc =>
    let dist := pairDist cfg rgb pr
    pairLoop cfg rgb rest (if ltMin dist acc.1 then (some dist, some pr.1) else acc)

/-- A uniform `h × w` image whose every pixel is `p`. -/
def uniformImage (h w : ℕ) (p : Pix) : Image := List.replicate h (List.replicate w p)

/-- The mock configuration of the repository's test suite
(tests/test_analyzer.py): two categories, Red系 (id 4, synonym レッド,
reference (255,0,0)) and Blue系 (id 5, synonym ブルー, reference (0,0,255)). -/
def mockConfig : Config :=
  { analysis := some {}
    color_categories := some [("Red系", 4, ["レッド"]), ("Blue系", 5, ["ブルー"])]
    color_definitions := some [("レッド", [255, 0, 0]), ("ブルー", [0, 0, 255])] }

/-- The same configuration with the two categories listed in the opposite
order. -/
def mockConfigPerm : Config :=
  { analysis := some {}
    color_categories := some [("Blue系", 5, ["ブルー"]), ("Red系", 4, ["レッド"])]
    color_definitions := some [("レッド", [255, 0, 0]), ("ブルー", [0, 0, 255])] }

/-- The analyzer built from the mock configuration. -/
def mockA : ImageAnalyzer := ImageAnalyzer.init mockConfig true

/-- The analyzer built from the permuted mock configuration. -/
def mockAPerm : ImageAnalyzer := ImageAnalyzer.init mockConfigPerm true

/-- The analyzer built from an entirely empty configuration: every setting
takes its default. -/
def defaultAnalyzer : ImageAnalyzer := ImageAnalyzer.init {} true

/-- A resize oracle that returns its input unchanged (`cv2.resize` is the
identity when the target size equals the source size). -/
def rzId : Image → ℕ → ℕ → Image := fun img _ _ => img

/-- A background-removal oracle that always fails. -/
def rembgNone : Image → Option RGBAImage := fun _ => none

/-- A clustering oracle that always raises. -/
def kmFail : ℕ → List Pix → Option (List QPix × List ℕ) := fun _ _ => none

/-- A clustering oracle that puts every sample into the first of three
clusters centred near pure red (the outcome of `cv2.kmeans` on a solid red
sample). -/
def kmRed : ℕ → List Pix → Option (List QPix × List ℕ) :=
  fun _ pts => some ([((255 : ℚ), 0, 0), (254, 0, 0), (253, 0, 0)], List.replicate pts.length 0)

/-- A ten-pixel solid red image in decoded (BGR) channel order. -/
def redRowImg : Image := [List.replicate 10 ((0 : ℤ), (0 : ℤ), (255 : ℤ))]

/-- A nine-pixel mid-gray row image. -/
def grayRow9 : Image := [List.replicate 9 ((128 : ℤ), (128 : ℤ), (128 : ℤ))]

/-- A ten-pixel mid-gray row image. -/
def grayRow10 : Image := [List.replicate 10 ((128 : ℤ), (128 : ℤ), (128 : ℤ))]

/-- A one-pixel placeholder image handed to oracles that ignore their
input. -/
def dotImg : Image := [[((0 : ℤ), (0 : ℤ), (0 : ℤ))]]

/-- A clustering oracle that puts every sample into a single cluster centred
at black. -/
def kmBlack : ℕ → List Pix → Option (List QPix × List ℕ) :=
  fun _ pts => some ([((0 : ℚ), 0, 0)], List.replicate pts.length 0)

/-- A resize oracle producing the nine-pixel gray row. -/
def rzGray9 : Image → ℕ → ℕ → Image := fun _ _ _ => grayRow9

/-- A resize oracle producing the ten-pixel gray row. -/
def rzGray10 : Image → ℕ → ℕ → Image := fun _ _ _ => grayRow10

/-- A resize oracle producing a uniform 100×100 mid-gray image. -/
def rzGray100 : Image → ℕ → ℕ → Image :=
  fun _ _ _ => uniformImage 100 100 ((128 : ℤ), 128, 128)

/-- A resize oracle producing a uniform 100×100 pure-white image. -/
def rzWhite100 : Image → ℕ → ℕ → Image :=
  fun _ _ _ => uniformImage 100 100 ((255 : ℤ), 255, 255)

/-! ## Helper lemmas -/

/-- Characterisation of `compute_weighted_distance`: the base is always the
weighted squared Euclidean distance, and the +30 penalty is present exactly
when the pixel is vivid (saturation above 70, value above 80) and the
reference name contains a neutral keyword. -/
theorem compute_weighted_distance_eq (p r : Pix) (n : String) :
    compute_weighted_distance p r n =
      ⟨weightedEuclidSq p r n,
        if 70 < hsvS p ∧ 80 < hsvV p ∧ (gray_keywords.any fun kw => substrOf kw n) = true
        then 30 else 0⟩ := by
  unfold compute_weighted_distance weightedEuclidSq
  by_cases hs : 70 < hsvS p <;> by_cases hv : 80 < hsvV p <;>
    by_cases hg : (gray_keywords.any fun kw => substrOf kw n) = true <;>
      simp [hs, hv, hg]

/-- The weighted squared distance from a pixel to itself is zero. -/
theorem weightedEuclidSq_self (p : Pix) (n : String) : weightedEuclidSq p p n = 0 := by
  unfold weightedEuclidSq
  ring_nf

/-- A zero base square denotes exactly the penalty. -/
theorem valEq_zero_baseSq (q : ℚ) : WDist.valEq ⟨0, q⟩ q := by
  constructor
  · exact le_refl q
  · ring

/-! ## Claim C6 -/

/-- C6: for every pixel `p`, reference `r` and name `n`,
`compute_weighted_distance` adds the fixed penalty of 30 to the weighted
Euclidean distance if and only if `p`'s HSV saturation exceeds 70 and value
exceeds 80 and `n` contains a neutral keyword; in every other case the result
is the weighted Euclidean distance alone (zero penalty). -/
theorem gray_penalty_iff_vivid_and_neutral (p r : Pix) (n : String) :
    compute_weighted_distance p r n =
      ⟨weightedEuclidSq p r n,
        if 70 < hsvS p ∧ 80 < hsvV p ∧ (gray_keywords.any fun kw => substrOf kw n) = true
        then 30 else 0⟩ :=
  compute_weighted_distance_eq p r n

/-! ## Claim C2 -/

/-- C2 (amended): the distance from a pixel to an identical reference is 0
for every name, except when the pixel is vivid (saturation above 70, value
above 80) and the name contains a neutral keyword, in which case it is the
bare penalty 30. -/
theorem distance_self_eq_penalty (p : Pix) (n : String) :
    WDist.valEq (compute_weighted_distance p p n)
      (if 70 < hsvS p ∧ 80 < hsvV p ∧ (gray_keywords.any fun kw => substrOf kw n) = true
       then 30 else 0) := by
  rw [compute_weighted_distance_eq, weightedEuclidSq_self]
  exact valEq_zero_baseSq _

/-- C2 (counterexample): for the vivid pixel (255,0,0) against the identical
reference with the neutral name "ブラック" the distance is 30, not 0. -/
theorem distance_self_nonzero_counterexample :
    ¬ WDist.valEq (compute_weighted_distance ((255 : ℤ), 0, 0) ((255 : ℤ), 0, 0) "ブラック") 0 ∧
    WDist.valEq (compute_weighted_distance ((255 : ℤ), 0, 0) ((255 : ℤ), 0, 0) "ブラック") 30 := by
  with_unfolding_all decide

/-! ## Claim C3 -/

/-- C3 (amended): for pixel (245,0,0) against reference (255,0,0) the
distance is 15 for a warm-tagged (and not neutral-tagged) name, 10 for a name
that is neither warm- nor neutral-tagged, and 40 (10 plus the gray penalty,
since the pixel is vivid) for a neutral-tagged (and not warm-tagged) name. -/
theorem distance_245_255_by_tag (n : String) :
    ((red_keywords.any fun kw => substrOf kw n) = true →
     (gray_keywords.any fun kw => substrOf kw n) = false →
      WDist.valEq (compute_weighted_distance ((245 : ℤ), 0, 0) ((255 : ℤ), 0, 0) n) 15) ∧
    ((red_keywords.any fun kw => substrOf kw n) = false →
     (gray_keywords.any fun kw => substrOf kw n) = false →
      WDist.valEq (compute_weighted_distance ((245 : ℤ), 0, 0) ((255 : ℤ), 0, 0) n) 10) ∧
    ((red_keywords.any fun kw => substrOf kw n) = false →
     (gray_keywords.any fun kw => substrOf kw n) = true →
      WDist.valEq (compute_weighted_distance ((245 : ℤ), 0, 0) ((255 : ℤ), 0, 0) n) 40) := by
  have hs : 70 < hsvS ((245 : ℤ), 0, 0) ∧ 80 < hsvV ((245 : ℤ), 0, 0) := by decide
  refine ⟨fun hw hg => ?_, fun hw hg => ?_, fun hw hg => ?_⟩ <;>
    · rw [compute_weighted_distance_eq]
      unfold weightedEuclidSq
      simp only [hw, hg, hs.1, hs.2, if_true, if_false, Bool.false_eq_true, and_true,
        and_false, true_and, if_neg, WDist.valEq]
      norm_num

/-- C3 (counterexample): for the neutral-tagged name "ブラック" the distance
from (245,0,0) to (255,0,0) is 40, not the claimed 10. -/
theorem distance_neutral_tag_counterexample :
    ¬ WDist.valEq (compute_weighted_distance ((245 : ℤ), 0, 0) ((255 : ℤ), 0, 0) "ブラック") 10 ∧
    WDist.valEq (compute_weighted_distance ((245 : ℤ), 0, 0) ((255 : ℤ), 0, 0) "ブラック") 40 := by
  with_unfolding_all decide

/-- C3 (witness): the three tag cases exercised on "レッド" (warm), "ブルー"
(no boost) and "ブラック" (neutral). -/
theorem distance_245_255_by_tag_witness :
    ((red_keywords.any fun kw => substrOf kw "レッド") = true ∧
     (gray_keywords.any fun kw => substrOf kw "レッド") = false ∧
     WDist.valEq (compute_weighted_distance ((245 : ℤ), 0, 0) ((255 : ℤ), 0, 0) "レッド") 15) ∧
    ((red_keywords.any fun kw => substrOf kw "ブルー") = false ∧
     (gray_keywords.any fun kw => substrOf kw "ブルー") = false ∧
     WDist.valEq (compute_weighted_distance ((245 : ℤ), 0, 0) ((255 : ℤ), 0, 0) "ブルー") 10) ∧
    ((red_keywords.any fun kw => substrOf kw "ブラック") = false ∧
     (gray_keywords.any fun kw => substrOf kw "ブラック") = true ∧
     WDist.valEq (compute_weighted_distance ((245 : ℤ), 0, 0) ((255 : ℤ), 0, 0) "ブラック") 40) :=
  ⟨⟨by decide, by decide, (distance_245_255_by_tag "レッド").1 (by decide) (by decide)⟩,
   ⟨by decide, by decide, (distance_245_255_by_tag "ブルー").2.1 (by decide) (by decide)⟩,
   ⟨by decide, by decide, (distance_245_255_by_tag "ブラック").2.2 (by decide) (by decide)⟩⟩

/-! ## Claim C10 -/

/-- C10: a synonym name that is absent from the colour-definitions table, or
maps to an empty entry, resolves to the default mid-gray (128,128,128), and
category matching therefore compares such a synonym against mid-gray. -/
theorem get_rgb_missing_defaults_gray (name : String) (config : Config)
    (h : (config.color_definitions.getD []).lookup name = none ∨
         (config.color_definitions.getD []).lookup name = some []) :
    get_rgb_from_color_name name config = [128, 128, 128] ∧
    ∀ (rgb : Pix) (cat : String),
      pairDist config rgb (cat, name) =
        compute_weighted_distance rgb ((128 : ℤ), 128, 128) name := by
  have h1 : get_rgb_from_color_name name config = [128, 128, 128] := by
    unfold get_rgb_from_color_name
    rcases h with h | h <;> simp [h]
  refine ⟨h1, fun rgb cat => ?_⟩
  unfold pairDist
  rw [h1]
  rfl

/-- C10 (witness): "ピンク" has no entry in the mock configuration's
colour-definitions table and resolves to mid-gray. -/
theorem get_rgb_missing_defaults_gray_witness :
    ((mockConfig.color_definitions.getD []).lookup "ピンク" = none ∨
     (mockConfig.color_definitions.getD []).lookup "ピンク" = some []) ∧
    (get_rgb_from_color_name "ピンク" mockConfig = [128, 128, 128] ∧
     ∀ (rgb : Pix) (cat : String),
       pairDist mockConfig rgb (cat, "ピンク") =
         compute_weighted_distance rgb ((128 : ℤ), 128, 128) "ピンク") :=
  ⟨Or.inl (by decide), get_rgb_missing_defaults_gray "ピンク" mockConfig (Or.inl (by decide))⟩

/-! ## Pipeline helper lemmas -/

/-- Unfolding of `analyze` on a successful fetch. -/
theorem analyze_some (A : ImageAnalyzer) (img : Image) (rz : Image → ℕ → ℕ → Image)
    (rembg : Image → Option RGBAImage) (km : ℕ → List Pix → Option (List QPix × List ℕ)) :
    A.analyze (some img) rz rembg km =
      if (if A.use_rembg then rembgFiltered img rz rembg
          else brightnessFiltered A img rz).length < 10
      then "N/A"
      else clusterAndMatch A
        (if A.use_rembg then rembgFiltered img rz rembg else brightnessFiltered A img rz)
        km := rfl

/-- A category table whose every entry has an empty synonym list leaves the
matching accumulator unchanged. -/
theorem catLoop_no_synonyms (cfg : Config) (rgb : Pix)
    (T : List (String × ℤ × List String)) (acc : Option WDist × Option String)
    (h : ∀ e ∈ T, e.2.2 = ([] : List String)) : catLoop cfg rgb T acc = acc := by
  induction T generalizing acc with
  | nil => rfl
  | cons e rest ih =>
    have he : e.2.2 = [] := h e (by simp)
    simp only [catLoop, he, synLoop]
    exact ih acc (fun x hx => h x (by simp [hx]))

/-- Matching returns no category when no entry of the table has a synonym. -/
theorem match_none_of_no_synonyms (A : ImageAnalyzer) (rgb : Pix)
    (h : ∀ e ∈ A.color_categories, e.2.2 = ([] : List String)) :
    match_color_to_category A rgb = none := by
  unfold match_color_to_category
  rw [catLoop_no_synonyms _ _ _ _ h]

/-- When matching can never return a category, the clustering stage returns
the sentinel whatever the clustering oracle produces. -/
theorem clusterAndMatch_no_match (A : ImageAnalyzer) (filtered : List Pix)
    (km : ℕ → List Pix → Option (List QPix × List ℕ))
    (h : ∀ rgb : Pix, match_color_to_category A rgb = none) :
    clusterAndMatch A filtered km = "N/A" := by
  simp only [clusterAndMatch]
  cases hkm : km (A.analysis_config.kmeans_k.getD 3) filtered with
  | none => rfl
  | some pr =>
    obtain ⟨centers, labels⟩ := pr
    cases hdom : dominantOf centers labels with
    | none => simp [hdom]
    | some rgbf => simp [hdom, h rgbf]

/-! ## Claim C5 -/

/-- C5: `analyze` (a total function — no exception escapes) returns the
single "N/A" sentinel under each of the four error conditions: the fetch
failed (`download_image` returned `None`), fewer than 10 pixels survived
filtering, the clustering oracle raised, or category matching produced no
category. -/
theorem analyze_error_recovery :
    (∀ (A : ImageAnalyzer) (rz : Image → ℕ → ℕ → Image) (rembg : Image → Option RGBAImage)
       (km : ℕ → List Pix → Option (List QPix × List ℕ)),
       A.analyze none rz rembg km = "N/A") ∧
    (∀ (A : ImageAnalyzer) (img : Image) (rz : Image → ℕ → ℕ → Image)
       (rembg : Image → Option RGBAImage) (km : ℕ → List Pix → Option (List QPix × List ℕ)),
       (if A.use_rembg then rembgFiltered img rz rembg
        else brightnessFiltered A img rz).length < 10 →
       A.analyze (some img) rz rembg km = "N/A") ∧
    (∀ (A : ImageAnalyzer) (img : Image) (rz : Image → ℕ → ℕ → Image)
       (rembg : Image → Option RGBAImage) (km : ℕ → List Pix → Option (List QPix × List ℕ)),
       km (A.analysis_config.kmeans_k.getD 3)
         (if A.use_rembg then rembgFiltered img rz rembg
          else brightnessFiltered A img rz) = none →
       A.analyze (some img) rz rembg km = "N/A") ∧
    (∀ (A : ImageAnalyzer) (img : Image) (rz : Image → ℕ → ℕ → Image)
       (rembg : Image → Option RGBAImage) (km : ℕ → List Pix → Option (List QPix × List ℕ)),
       (∀ rgb : Pix, match_color_to_category A rgb = none) →
       A.analyze (some img) rz rembg km = "N/A") := by
  refine ⟨fun A rz rembg km => rfl, fun A img rz rembg km hlen => ?_,
    fun A img rz rembg km hkm => ?_, fun A img rz rembg km hm => ?_⟩
  · rw [analyze_some, if_pos hlen]
  · rw [analyze_some]
    by_cases hlt : (if A.use_rembg then rembgFiltered img rz rembg
        else brightnessFiltered A img rz).length < 10
    · rw [if_pos hlt]
    · rw [if_neg hlt]
      simp only [clusterAndMatch]
      rw [hkm]
  · rw [analyze_some]
    by_cases hlt : (if A.use_rembg then rembgFiltered img rz rembg
        else brightnessFiltered A img rz).length < 10
    · rw [if_pos hlt]
    · rw [if_neg hlt]
      exact clusterAndMatch_no_match _ _ _ hm

/-- C5 (witness): each of the four error conditions, exercised concretely on
the default (empty-table) analyzer. -/
theorem analyze_error_recovery_witness :
    (defaultAnalyzer.analyze none rzId rembgNone kmFail = "N/A") ∧
    ((if defaultAnalyzer.use_rembg then rembgFiltered dotImg rzId rembgNone
      else brightnessFiltered defaultAnalyzer dotImg rzId).length < 10 ∧
     defaultAnalyzer.analyze (some dotImg) rzId rembgNone kmFail = "N/A") ∧
    (kmFail (defaultAnalyzer.analysis_config.kmeans_k.getD 3)
       (if defaultAnalyzer.use_rembg then rembgFiltered dotImg rzId rembgNone
        else brightnessFiltered defaultAnalyzer dotImg rzId) = none ∧
     defaultAnalyzer.analyze (some dotImg) rzId rembgNone kmFail = "N/A") ∧
    ((∀ rgb : Pix, match_color_to_category defaultAnalyzer rgb = none) ∧
     defaultAnalyzer.analyze (some grayRow10) rzId rembgNone kmBlack = "N/A") := by
  have hm : ∀ rgb : Pix, match_color_to_category defaultAnalyzer rgb = none :=
    fun rgb => match_none_of_no_synonyms defaultAnalyzer rgb (by simp [defaultAnalyzer, ImageAnalyzer.init])
  refine ⟨analyze_error_recovery.1 defaultAnalyzer rzId rembgNone kmFail,
    ⟨?_, analyze_error_recovery.2.1 defaultAnalyzer dotImg rzId rembgNone kmFail ?_⟩,
    ⟨rfl, analyze_error_recovery.2.2.1 defaultAnalyzer dotImg rzId rembgNone kmFail rfl⟩,
    ⟨hm, analyze_error_recovery.2.2.2 defaultAnalyzer grayRow10 rzId rembgNone kmBlack hm⟩⟩ <;>
  · with_unfolding_all decide

/-! ## Claim C4 -/

/-- C4 (counterexample): handing the constructor a configuration whose
category table is absent (hence empty — no category with a synonym) does not
fail: it succeeds and yields a fully-formed, operational analyzer. -/
theorem init_succeeds_on_empty_table_counterexample :
    ImageAnalyzer.init {} true =
      { config := {}, analysis_config := {}, color_categories := [], use_rembg := false } ∧
    (ImageAnalyzer.init {} true).analyze none rzId rembgNone kmFail = "N/A" := ⟨rfl, rfl⟩

/-- C4 (amended): construction never fails — `__init__` performs no
validation of the category table; an analyzer built over a table without any
(category, synonym) entry simply returns "N/A" from every `analyze` call. -/
theorem init_total_empty_table_yields_na (cfg : Config) (avail : Bool)
    (h : ∀ e ∈ cfg.color_categories.getD [], e.2.2 = ([] : List String)) :
    (ImageAnalyzer.init cfg avail).color_categories = cfg.color_categories.getD [] ∧
    ∀ (fetched : Option Image) (rz : Image → ℕ → ℕ → Image)
      (rembg : Image → Option RGBAImage) (km : ℕ → List Pix → Option (List QPix × List ℕ)),
      (ImageAnalyzer.init cfg avail).analyze fetched rz rembg km = "N/A" := by
  refine ⟨rfl, fun fetched rz rembg km => ?_⟩
  cases fetched with
  | none => rfl
  | some img =>
    rw [analyze_some]
    by_cases hlt : (if (ImageAnalyzer.init cfg avail).use_rembg then rembgFiltered img rz rembg
        else brightnessFiltered (ImageAnalyzer.init cfg avail) img rz).length < 10
    · rw [if_pos hlt]
    · rw [if_neg hlt]
      exact clusterAndMatch_no_match _ _ _
        (fun rgb => match_none_of_no_synonyms (ImageAnalyzer.init cfg avail) rgb (by exact h))

/-- C4 (witness): the amended claim at the empty configuration. -/
theorem init_total_empty_table_yields_na_witness :
    (∀ e ∈ (({} : Config)).color_categories.getD [], e.2.2 = ([] : List String)) ∧
    ((ImageAnalyzer.init {} true).color_categories = ({} : Config).color_categories.getD [] ∧
     ∀ (fetched : Option Image) (rz : Image → ℕ → ℕ → Image)
       (rembg : Image → Option RGBAImage) (km : ℕ → List Pix → Option (List QPix × List ℕ)),
       (ImageAnalyzer.init {} true).analyze fetched rz rembg km = "N/A") :=
  ⟨by simp, init_total_empty_table_yields_na {} true (by simp)⟩

/-! ## Claim C8 -/

/-- C8: in the default (non-rembg) flow, a filtered sample of exactly 9
pixels makes `analyze` return "N/A" without clustering, while a filtered
sample of exactly 10 pixels proceeds to the clustering stage. -/
theorem filtered_sample_boundary :
    (∀ (A : ImageAnalyzer) (img : Image) (rz : Image → ℕ → ℕ → Image)
       (rembg : Image → Option RGBAImage) (km : ℕ → List Pix → Option (List QPix × List ℕ)),
       A.use_rembg = false → (brightnessFiltered A img rz).length = 9 →
       A.analyze (some img) rz rembg km = "N/A") ∧
    (∀ (A : ImageAnalyzer) (img : Image) (rz : Image → ℕ → ℕ → Image)
       (rembg : Image → Option RGBAImage) (km : ℕ → List Pix → Option (List QPix × List ℕ)),
       A.use_rembg = false → (brightnessFiltered A img rz).length = 10 →
       A.analyze (some img) rz rembg km = clusterAndMatch A (brightnessFiltered A img rz) km) := by
  refine ⟨fun A img rz rembg km hu hlen => ?_, fun A img rz rembg km hu hlen => ?_⟩
  · rw [analyze_some]
    simp [hu, hlen]
  · rw [analyze_some]
    simp [hu, hlen]

/-- C8 (witness): a nine-pixel mid-gray sample yields "N/A"; a ten-pixel one
proceeds to clustering. -/
theorem filtered_sample_boundary_witness :
    (defaultAnalyzer.use_rembg = false ∧
     (brightnessFiltered defaultAnalyzer dotImg rzGray9).length = 9 ∧
     defaultAnalyzer.analyze (some dotImg) rzGray9 rembgNone kmFail = "N/A") ∧
    (defaultAnalyzer.use_rembg = false ∧
     (brightnessFiltered defaultAnalyzer dotImg rzGray10).length = 10 ∧
     defaultAnalyzer.analyze (some dotImg) rzGray10 rembgNone kmFail =
       clusterAndMatch defaultAnalyzer (brightnessFiltered defaultAnalyzer dotImg rzGray10) kmFail) := by
  have h9 : (brightnessFiltered defaultAnalyzer dotImg rzGray9).length = 9 := by
    with_unfolding_all decide
  have h10 : (brightnessFiltered defaultAnalyzer dotImg rzGray10).length = 10 := by
    with_unfolding_all decide
  exact ⟨⟨rfl, h9, filtered_sample_boundary.1 defaultAnalyzer dotImg rzGray9 rembgNone kmFail rfl h9⟩,
    ⟨rfl, h10, filtered_sample_boundary.2 defaultAnalyzer dotImg rzGray10 rembgNone kmFail rfl h10⟩⟩

/-! ## Claim C9 -/

/-- Flattening a uniform grid gives a uniform row. -/
theorem flatten_replicate_replicate {α : Type} (n m : ℕ) (x : α) :
    (List.replicate n (List.replicate m x)).flatten = List.replicate (n * m) x := by
  induction n with
  | zero => simp
  | succ k ih =>
    rw [List.replicate_succ, List.flatten_cons, ih, Nat.succ_mul, Nat.add_comm,
      List.replicate_add]

/-- The head row of a uniform grid. -/
theorem headD_uniform (h w : ℕ) (p : Pix) :
    (List.replicate h (List.replicate w p)).headD [] =
      if h = 0 then [] else List.replicate w p := by
  cases h <;> simp [List.replicate_succ]

/-- The brightness filter on an image whose resize comes out uniform: every
pixel survives when the common mean brightness is strictly between the
default thresholds, and none otherwise; the centre crop keeps
`(h-60) * (w-60)` pixels when both dimensions exceed 60, and the whole image
otherwise. -/
theorem brightnessFiltered_uniform (img : Image) (rz : Image → ℕ → ℕ → Image)
    (p : Pix) (h w : ℕ) (hrz : rz img 100 100 = uniformImage h w p) :
    brightnessFiltered defaultAnalyzer img rz =
      if 20 < pixMean (bgr2rgbPix p) ∧ pixMean (bgr2rgbPix p) < 230 then
        List.replicate (if 60 < h ∧ 60 < w then (h - 60) * (w - 60) else h * w) (bgr2rgbPix p)
      else [] := by
  have h100w : defaultAnalyzer.analysis_config.resize_width.getD 100 = 100 := rfl
  have h100h : defaultAnalyzer.analysis_config.resize_height.getD 100 = 100 := rfl
  have h20 : defaultAnalyzer.analysis_config.pixel_filter_min.getD 20 = 20 := rfl
  have h230 : defaultAnalyzer.analysis_config.pixel_filter_max.getD 230 = 230 := rfl
  unfold brightnessFiltered
  simp only [h100w, h100h, h20, h230, hrz]
  simp only [uniformImage, List.length_replicate, headD_uniform]
  by_cases hcrop : 60 < h ∧ 60 < w
  · have hh0 : ¬ h = 0 := by omega
    rw [if_neg hh0]
    simp only [List.length_replicate]
    rw [if_pos (by omega : 2 * 30 < h ∧ 2 * 30 < w)]
    rw [List.drop_replicate, List.take_replicate, List.map_replicate,
      List.drop_replicate, List.take_replicate]
    have hmin1 : min (h - 2 * 30) (h - 30) = h - 60 := by omega
    have hmin2 : min (w - 2 * 30) (w - 30) = w - 60 := by omega
    rw [hmin1, hmin2]
    have hsz : ((List.replicate (h - 60) (List.replicate (w - 60) p)).map List.length).sum =
        (h - 60) * (w - 60) := by
      rw [List.map_replicate, List.length_replicate, List.sum_replicate, smul_eq_mul]
    rw [hsz, if_neg (by
      have : 0 < (h - 60) * (w - 60) := Nat.mul_pos (by omega) (by omega)
      omega)]
    rw [List.map_replicate, List.map_replicate, flatten_replicate_replicate,
      List.filter_replicate]
    rw [if_pos hcrop]
    by_cases hmean : 20 < pixMean (bgr2rgbPix p) ∧ pixMean (bgr2rgbPix p) < 230
    · rw [if_pos hmean, if_pos (by simp [hmean.1, hmean.2])]
    · rw [if_neg hmean, if_neg (by
        intro hcontra
        simp only [Bool.and_eq_true, decide_eq_true_eq] at hcontra
        exact hmean hcontra)]
  · have hcond : ¬ (2 * 30 < h ∧ 2 * 30 < (if h = 0 then ([] : List Pix)
        else List.replicate w p).length) := by
      by_cases hh : h = 0
      · simp [hh]
      · simp only [if_neg hh, List.length_replicate]
        omega
    rw [if_neg hcond, if_neg hcrop]
    rw [show ((List.replicate h (List.replicate w p)).map List.length).sum = h * w by
      rw [List.map_replicate, List.length_replicate, List.sum_replicate, smul_eq_mul]]
    rw [ite_self, List.map_replicate, List.map_replicate, flatten_replicate_replicate,
      List.filter_replicate]
    by_cases hmean : 20 < pixMean (bgr2rgbPix p) ∧ pixMean (bgr2rgbPix p) < 230
    · rw [if_pos hmean, if_pos (by simp [hmean.1, hmean.2])]
    · rw [if_neg hmean, if_neg (by
        intro hcontra
        simp only [Bool.and_eq_true, decide_eq_true_eq] at hcontra
        exact hmean hcontra)]

/-- C9: with the default configuration, an image that resizes to a uniform
mid-gray grid passes the brightness filter in full (every cropped pixel is
kept, since 20 < 128 < 230), and an image that resizes to a uniform
pure-white grid yields an empty filtered sample (255 fails the upper
threshold). -/
theorem uniform_gray_full_white_empty :
    (∀ (img : Image) (rz : Image → ℕ → ℕ → Image) (h w : ℕ),
      rz img 100 100 = uniformImage h w ((128 : ℤ), 128, 128) → 60 < h → 60 < w →
      brightnessFiltered defaultAnalyzer img rz =
        List.replicate ((h - 60) * (w - 60)) ((128 : ℤ), 128, 128)) ∧
    (∀ (img : Image) (rz : Image → ℕ → ℕ → Image) (h w : ℕ),
      rz img 100 100 = uniformImage h w ((255 : ℤ), 255, 255) →
      brightnessFiltered defaultAnalyzer img rz = []) := by
  constructor
  · intro img rz h w hrz hh hw
    rw [brightnessFiltered_uniform img rz _ h w hrz]
    rw [if_pos (by with_unfolding_all decide), if_pos ⟨hh, hw⟩]
    rfl
  · intro img rz h w hrz
    rw [brightnessFiltered_uniform img rz _ h w hrz]
    rw [if_neg (by with_unfolding_all decide)]

/-- C9 (witness): the uniform 100×100 cases, giving 1600 kept pixels for
mid-gray and none for white. -/
theorem uniform_gray_full_white_empty_witness :
    (rzGray100 dotImg 100 100 = uniformImage 100 100 ((128 : ℤ), 128, 128) ∧
     60 < 100 ∧
     brightnessFiltered defaultAnalyzer dotImg rzGray100 =
       List.replicate ((100 - 60) * (100 - 60)) ((128 : ℤ), 128, 128)) ∧
    (rzWhite100 dotImg 100 100 = uniformImage 100 100 ((255 : ℤ), 255, 255) ∧
     brightnessFiltered defaultAnalyzer dotImg rzWhite100 = []) :=
  ⟨⟨rfl, by norm_num,
    uniform_gray_full_white_empty.1 dotImg rzGray100 100 100 rfl (by norm_num) (by norm_num)⟩,
   ⟨rfl, uniform_gray_full_white_empty.2 dotImg rzWhite100 100 100 rfl⟩⟩

/-! ## Claim C1 -/

/-- C1 (amended): whenever `analyze` classifies successfully (returns
anything other than "N/A"), the returned value is `"=" ++ id` for the matched
category's id — the `=` prefix is applied by the core itself, inside
`analyze`, not by the external caller. -/
theorem analyze_success_eq_prefixed (A : ImageAnalyzer) (fetched : Option Image)
    (rz : Image → ℕ → ℕ → Image) (rembg : Image → Option RGBAImage)
    (km : ℕ → List Pix → Option (List QPix × List ℕ))
    (h : A.analyze fetched rz rembg km ≠ "N/A") :
    ∃ (cat : String) (cid : ℤ) (syns : List String),
      A.color_categories.lookup cat = some (cid, syns) ∧
      A.analyze fetched rz rembg km = "=" ++ toString cid := by
  cases fetched with
  | none => exact absurd rfl h
  | some img =>
    rw [analyze_some] at h ⊢
    by_cases hlt : (if A.use_rembg then rembgFiltered img rz rembg
        else brightnessFiltered A img rz).length < 10
    · rw [if_pos hlt] at h
      exact absurd rfl h
    · rw [if_neg hlt] at h ⊢
      simp only [clusterAndMatch] at h ⊢
      cases hkm : km (A.analysis_config.kmeans_k.getD 3)
          (if A.use_rembg then rembgFiltered img rz rembg
           else brightnessFiltered A img rz) with
      | none => rw [hkm] at h; exact absurd rfl h
      | some pr =>
        obtain ⟨centers, labels⟩ := pr
        rw [hkm] at h
        cases hdom : dominantOf centers labels with
        | none => simp [hdom] at h
        | some rgbf =>
          simp only [hdom] at h ⊢
          cases hmt : match_color_to_category A rgbf with
          | none => simp [hmt] at h
          | some cat =>
            simp only [hmt] at h ⊢
            by_cases hcat : cat = ""
            · simp [hcat] at h
            · simp only [if_neg hcat] at h ⊢
              cases hlk : A.color_categories.lookup cat with
              | none => simp [hlk] at h
              | some pr2 =>
                refine ⟨cat, pr2.1, pr2.2, by rw [hlk], ?_⟩
                simp [hlk]

/-- C1 (counterexample): on a solid red image with the test-suite
configuration, `analyze` returns "=4" — not the matched category's plain
identifier "4".  The `=` prefix is already present in the core's return
value. -/
theorem analyze_prefix_counterexample :
    mockA.color_categories.lookup "Red系" = some (4, ["レッド"]) ∧
    mockA.analyze (some redRowImg) rzId rembgNone kmRed = "=" ++ toString (4 : ℤ) ∧
    mockA.analyze (some redRowImg) rzId rembgNone kmRed ≠ toString (4 : ℤ) := by
  have hfil : brightnessFiltered mockA redRowImg rzId =
      List.replicate 10 ((255 : ℤ), 0, 0) := by with_unfolding_all decide
  have hcm : clusterAndMatch mockA (List.replicate 10 ((255 : ℤ), 0, 0)) kmRed = "=4" := by
    with_unfolding_all decide
  have hu : mockA.use_rembg = false := rfl
  have hrun : mockA.analyze (some redRowImg) rzId rembgNone kmRed = "=4" := by
    rw [analyze_some]
    simp only [hu, Bool.false_eq_true, if_false, hfil, List.length_replicate]
    rw [if_neg (by norm_num)]
    exact hcm
  refine ⟨by decide, ?_, ?_⟩
  · rw [hrun]
    decide
  · rw [hrun]
    decide

/-- C1 (witness): the amended claim exercised on the solid red run. -/
theorem analyze_success_eq_prefixed_witness :
    mockA.analyze (some redRowImg) rzId rembgNone kmRed ≠ "N/A" ∧
    ∃ (cat : String) (cid : ℤ) (syns : List String),
      mockA.color_categories.lookup cat = some (cid, syns) ∧
      mockA.analyze (some redRowImg) rzId rembgNone kmRed = "=" ++ toString cid := by
  have hfil : brightnessFiltered mockA redRowImg rzId =
      List.replicate 10 ((255 : ℤ), 0, 0) := by with_unfolding_all decide
  have hcm : clusterAndMatch mockA (List.replicate 10 ((255 : ℤ), 0, 0)) kmRed = "=4" := by
    with_unfolding_all decide
  have hu : mockA.use_rembg = false := rfl
  have hrun : mockA.analyze (some redRowImg) rzId rembgNone kmRed = "=4" := by
    rw [analyze_some]
    simp only [hu, Bool.false_eq_true, if_false, hfil, List.length_replicate]
    rw [if_neg (by norm_num)]
    exact hcm
  have hne : mockA.analyze (some redRowImg) rzId rembgNone kmRed ≠ "N/A" := by
    rw [hrun]; decide
  exact ⟨hne, analyze_success_eq_prefixed mockA (some redRowImg) rzId rembgNone kmRed hne⟩

/-! ## Claim C7 -/

/-- The exact square-root comparison is asymmetric. -/
theorem sqrtAddLtB_asymm (a p b q : ℚ) (h : sqrtAddLtB a p b q = true) :
    sqrtAddLtB b q a p = false := by
  unfold sqrtAddLtB at h ⊢
  split_ifs at h ⊢ with h1 h2 h2
  · exact absurd h2 (by linarith)
  · simp only [Bool.or_eq_true, decide_eq_true_eq] at h
    cases hc0 : (decide (0 < a - b - (p - q) ^ 2) &&
        decide (4 * (p - q) ^ 2 * b < (a - b - (p - q) ^ 2) ^ 2)) with
    | false => rfl
    | true =>
      exfalso
      simp only [Bool.and_eq_true, decide_eq_true_eq] at hc0
      have hsq : (p - q) ^ 2 = (q - p) ^ 2 := by ring
      rw [hsq] at hc0
      rcases h with h | h
      · linarith [hc0.1]
      · linarith [hc0.2]
  · simp only [Bool.and_eq_true, decide_eq_true_eq] at h
    cases hc0 : (decide (b - a - (p - q) ^ 2 < 0) ||
        decide ((b - a - (p - q) ^ 2) ^ 2 < 4 * (p - q) ^ 2 * a)) with
    | false => rfl
    | true =>
      exfalso
      simp only [Bool.or_eq_true, decide_eq_true_eq] at hc0
      have hsq : (p - q) ^ 2 = (q - p) ^ 2 := by ring
      rw [hsq] at hc0
      rcases hc0 with hc | hc
      · linarith [h.1]
      · linarith [h.2]
  · simp only [Bool.or_eq_true, decide_eq_true_eq] at h
    cases hc0 : (decide (b - a - (p - q) ^ 2 < 0) ||
        decide ((b - a - (p - q) ^ 2) ^ 2 < 4 * (p - q) ^ 2 * a)) with
    | false => rfl
    | true =>
      exfalso
      simp only [Bool.or_eq_true, decide_eq_true_eq] at hc0
      have h0 : q - p = 0 := by linarith
      have h0' : p - q = 0 := by linarith
      rw [h0] at h
      rw [h0'] at hc0
      rcases h with h | h <;> rcases hc0 with hc | hc <;>
        nlinarith [sq_nonneg (a - b), sq_nonneg (b - a)]

/-- The float comparison of `match_color_to_category` is asymmetric. -/
theorem wdistLt_asymm (x y : WDist) (h : wdistLt x y = true) : wdistLt y x = false :=
  sqrtAddLtB_asymm _ _ _ _ h

/-- The float comparison of `match_color_to_category` is irreflexive. -/
theorem wdistLt_irrefl (x : WDist) : wdistLt x x = false := by
  cases hx : wdistLt x x with
  | false => rfl
  | true =>
    have h2 := wdistLt_asymm x x hx
    rw [hx] at h2
    exact h2

/-- The inner synonym loop is the linear pair loop on the synonyms paired
with their category. -/
theorem synLoop_eq_pairLoop (cfg : Config) (rgb : Pix) (cat : String)
    (syns : List String) (acc : Option WDist × Option String) :
    synLoop cfg rgb cat syns acc =
      pairLoop cfg rgb (syns.map (fun cname => (cat, cname))) acc := by
  induction syns generalizing acc with
  | nil => rfl
  | cons c rest ih =>
    simp only [synLoop, List.map_cons, pairLoop, pairDist]
    exact ih _

/-- The pair loop distributes over appending. -/
theorem pairLoop_append (cfg : Config) (rgb : Pix) (l1 l2 : List (String × String))
    (acc : Option WDist × Option String) :
    pairLoop cfg rgb (l1 ++ l2) acc = pairLoop cfg rgb l2 (pairLoop cfg rgb l1 acc) := by
  induction l1 generalizing acc with
  | nil => rfl
  | cons pr rest ih =>
    simp only [List.cons_append, pairLoop]
    exact ih _

/-- The nested category/synonym loops equal the linear loop over the
flattened pair list. -/
theorem catLoop_eq_pairLoop (cfg : Config) (rgb : Pix)
    (T : List (String × ℤ × List String)) (acc : Option WDist × Option String) :
    catLoop cfg rgb T acc = pairLoop cfg rgb (pairsOf T) acc := by
  induction T generalizing acc with
  | nil => rfl
  | cons e rest ih =>
    simp only [catLoop, pairsOf, List.flatMap_cons]
    rw [synLoop_eq_pairLoop, pairLoop_append]
    exact ih _

/-- Once the accumulator holds a distance no later pair beats, the loop keeps
it. -/
theorem pairLoop_stable (cfg : Config) (rgb : Pix) (ps : List (String × String))
    (w : WDist) (c : Option String)
    (h : ∀ pr ∈ ps, wdistLt (pairDist cfg rgb pr) w = false) :
    pairLoop cfg rgb ps (some w, c) = (some w, c) := by
  induction ps with
  | nil => rfl
  | cons pr rest ih =>
    have hpr : wdistLt (pairDist cfg rgb pr) w = false := h pr (by simp)
    simp only [pairLoop, ltMin, hpr, Bool.false_eq_true, if_false]
    exact ih (fun x hx => h x (by simp [hx]))

/-- The loop returns the category of the first pair attaining the minimum
distance: a pair no other pair strictly beats, and which strictly beats every
earlier pair.  The accumulator invariant: it is empty or strictly beaten by
the target pair. -/
theorem pairLoop_first_min (cfg : Config) (rgb : Pix) :
    ∀ (ps : List (String × String)) (i : ℕ) (hi : i < ps.length)
      (m : Option WDist) (c : Option String),
      (m = none ∨ ∃ w, m = some w ∧
        wdistLt (pairDist cfg rgb (ps.get ⟨i, hi⟩)) w = true) →
      (∀ (j : ℕ) (hj : j < ps.length),
        wdistLt (pairDist cfg rgb (ps.get ⟨j, hj⟩))
          (pairDist cfg rgb (ps.get ⟨i, hi⟩)) = false) →
      (∀ (j : ℕ) (hj : j < ps.length), j < i →
        wdistLt (pairDist cfg rgb (ps.get ⟨i, hi⟩))
          (pairDist cfg rgb (ps.get ⟨j, hj⟩)) = true) →
      (pairLoop cfg rgb ps (m, c)).2 = some (ps.get ⟨i, hi⟩).1 := by
  intro ps
  induction ps with
  | nil =>
    intro i hi
    exact absurd hi (by simp)
  | cons pr rest ih =>
    intro i hi m c hm hmin hfirst
    cases i with
    | zero =>
      have hstep : ltMin (pairDist cfg rgb pr) m = true := by
        rcases hm with rfl | ⟨w, rfl, hw⟩
        · rfl
        · exact hw
      have hstab : pairLoop cfg rgb rest (some (pairDist cfg rgb pr), some pr.1) =
          (some (pairDist cfg rgb pr), some pr.1) := by
        apply pairLoop_stable
        intro x hx
        obtain ⟨⟨k, hk⟩, hxk⟩ := List.mem_iff_get.mp hx
        have h2 := hmin (k + 1) (by simpa using Nat.succ_lt_succ hk)
        rw [← hxk]
        exact h2
      show (pairLoop cfg rgb rest
          (if ltMin (pairDist cfg rgb pr) m = true then (some (pairDist cfg rgb pr), some pr.1)
           else (m, c))).2 = some pr.1
      rw [if_pos hstep, hstab]
    | succ k =>
      have hk : k < rest.length := by simpa using hi
      show (pairLoop cfg rgb rest
          (if ltMin (pairDist cfg rgb pr) m = true then (some (pairDist cfg rgb pr), some pr.1)
           else (m, c))).2 = some (rest.get ⟨k, hk⟩).1
      cases hlt : ltMin (pairDist cfg rgb pr) m with
      | true =>
        rw [if_pos rfl]
        refine ih k hk _ _ (Or.inr ⟨pairDist cfg rgb pr, rfl, ?_⟩) ?_ ?_
        · exact hfirst 0 (by simp) (Nat.succ_pos k)
        · intro j hj
          exact hmin (j + 1) (by simpa using Nat.succ_lt_succ hj)
        · intro j hj hjk
          exact hfirst (j + 1) (by simpa using Nat.succ_lt_succ hj) (by omega)
      | false =>
        rw [if_neg Bool.false_ne_true]
        refine ih k hk m c ?_ ?_ ?_
        · rcases hm with rfl | ⟨w, rfl, hw⟩
          · exact Or.inl rfl
          · exact Or.inr ⟨w, rfl, hw⟩
        · intro j hj
          exact hmin (j + 1) (by simpa using Nat.succ_lt_succ hj)
        · intro j hj hjk
          exact hfirst (j + 1) (by simpa using Nat.succ_lt_succ hj) (by omega)

/-- Every member of a list has a first index. -/
theorem exists_first_index_of_mem {α : Type} (l : List α) (a : α) (h : a ∈ l) :
    ∃ (n : ℕ) (hn : n < l.length), l.get ⟨n, hn⟩ = a ∧
      ∀ (j : ℕ) (hj : j < l.length), j < n → l.get ⟨j, hj⟩ ≠ a := by
  induction l with
  | nil => cases h
  | cons b rest ih =>
    by_cases hba : b = a
    · exact ⟨0, by simp, hba, fun j hj hj0 => absurd hj0 (by omega)⟩
    · have hmem : a ∈ rest := by
        rcases List.mem_cons.mp h with h1 | h1
        · exact absurd h1.symm hba
        · exact h1
      obtain ⟨n, hn, hget, hfirst⟩ := ih hmem
      refine ⟨n + 1, by simpa using Nat.succ_lt_succ hn, hget, ?_⟩
      intro j hj hjn
      cases j with
      | zero => exact hba
      | succ j2 => exact hfirst j2 (by simpa using hj) (by omega)

/-- The per-pair distance only depends on the colour-definitions table. -/
theorem pairDist_congr (cfg cfg' : Config) (rgb : Pix) (pr : String × String)
    (h : cfg'.color_definitions = cfg.color_definitions) :
    pairDist cfg' rgb pr = pairDist cfg rgb pr := by
  unfold pairDist get_rgb_from_color_name
  rw [h]

/-- When one pair strictly beats every other pair of the table,
`match_color_to_category` returns its category. -/
theorem match_eq_unique_min (A : ImageAnalyzer) (rgb : Pix) (p : String × String)
    (hmem : p ∈ pairsOf A.color_categories)
    (hlt : ∀ q ∈ pairsOf A.color_categories, q ≠ p →
      wdistLt (pairDist A.config rgb p) (pairDist A.config rgb q) = true) :
    match_color_to_category A rgb = some p.1 := by
  unfold match_color_to_category
  rw [catLoop_eq_pairLoop]
  obtain ⟨n, hn, hget, hfirstne⟩ := exists_first_index_of_mem _ p hmem
  have hmin : ∀ (j : ℕ) (hj : j < (pairsOf A.color_categories).length),
      wdistLt (pairDist A.config rgb ((pairsOf A.color_categories).get ⟨j, hj⟩))
        (pairDist A.config rgb ((pairsOf A.color_categories).get ⟨n, hn⟩)) = false := by
    intro j hj
    rw [hget]
    by_cases hq : (pairsOf A.color_categories).get ⟨j, hj⟩ = p
    · rw [hq]
      exact wdistLt_irrefl _
    · exact wdistLt_asymm _ _
        (hlt ((pairsOf A.color_categories).get ⟨j, hj⟩) (List.get_mem _ _ _) hq)
  have hfirst : ∀ (j : ℕ) (hj : j < (pairsOf A.color_categories).length), j < n →
      wdistLt (pairDist A.config rgb ((pairsOf A.color_categories).get ⟨n, hn⟩))
        (pairDist A.config rgb ((pairsOf A.color_categories).get ⟨j, hj⟩)) = true := by
    intro j hj hjn
    rw [hget]
    exact hlt ((pairsOf A.color_categories).get ⟨j, hj⟩) (List.get_mem _ _ _)
      (hfirstne j hj hjn)
  have hres := pairLoop_first_min A.config rgb (pairsOf A.color_categories) n hn
    none none (Or.inl rfl) hmin hfirst
  rw [hres, hget]

/-- C7: category matching is order-independent when the minimum distance is
attained by exactly one (category, synonym) pair — permuting the category
table does not change the winner, which is that pair's category — and in
general the winner is the category of the first pair attaining the minimum
(ties keep the first-seen minimum in iteration order). -/
theorem match_order_independent_and_first_min :
    (∀ (A A' : ImageAnalyzer) (rgb : Pix) (p : String × String),
      A'.config.color_definitions = A.config.color_definitions →
      A'.color_categories.Perm A.color_categories →
      p ∈ pairsOf A.color_categories →
      (pairsOf A.color_categories).count p = 1 →
      (∀ q ∈ pairsOf A.color_categories, q ≠ p →
        wdistLt (pairDist A.config rgb p) (pairDist A.config rgb q) = true) →
      match_color_to_category A' rgb = match_color_to_category A rgb ∧
      match_color_to_category A rgb = some p.1) ∧
    (∀ (A : ImageAnalyzer) (rgb : Pix) (i : ℕ)
      (hi : i < (pairsOf A.color_categories).length),
      (∀ (j : ℕ) (hj : j < (pairsOf A.color_categories).length),
        wdistLt (pairDist A.config rgb ((pairsOf A.color_categories).get ⟨j, hj⟩))
          (pairDist A.config rgb ((pairsOf A.color_categories).get ⟨i, hi⟩)) = false) →
      (∀ (j : ℕ) (hj : j < (pairsOf A.color_categories).length), j < i →
        wdistLt (pairDist A.config rgb ((pairsOf A.color_categories).get ⟨i, hi⟩))
          (pairDist A.config rgb ((pairsOf A.color_categories).get ⟨j, hj⟩)) = true) →
      match_color_to_category A rgb = some ((pairsOf A.color_categories).get ⟨i, hi⟩).1) := by
  constructor
  · intro A A' rgb p hdef hperm hmem _hcount hlt
    have hP : (pairsOf A'.color_categories).Perm (pairsOf A.color_categories) :=
      hperm.flatMap_right _
    have hmem' : p ∈ pairsOf A'.color_categories := hP.mem_iff.mpr hmem
    have hlt' : ∀ q ∈ pairsOf A'.color_categories, q ≠ p →
        wdistLt (pairDist A'.config rgb p) (pairDist A'.config rgb q) = true := by
      intro q hq hqp
      rw [pairDist_congr _ _ _ _ hdef, pairDist_congr _ _ _ _ hdef]
      exact hlt q (hP.mem_iff.mp hq) hqp
    have h1 := match_eq_unique_min A rgb p hmem hlt
    have h2 := match_eq_unique_min A' rgb p hmem' hlt'
    exact ⟨h2.trans h1.symm, h1⟩
  · intro A rgb i hi hmin hfirst
    unfold match_color_to_category
    rw [catLoop_eq_pairLoop]
    exact pairLoop_first_min A.config rgb (pairsOf A.color_categories) i hi
      none none (Or.inl rfl) hmin hfirst

/-- C7 (witness): on the mock table and its permutation, the pixel (255,0,0)
has the unique minimising pair ("Red系", "レッド"); both orders return Red系,
which is also the first pair attaining the minimum. -/
theorem match_order_independent_and_first_min_witness :
    (mockAPerm.config.color_definitions = mockA.config.color_definitions ∧
     mockAPerm.color_categories.Perm mockA.color_categories ∧
     ("Red系", "レッド") ∈ pairsOf mockA.color_categories ∧
     (pairsOf mockA.color_categories).count ("Red系", "レッド") = 1 ∧
     (∀ q ∈ pairsOf mockA.color_categories, q ≠ ("Red系", "レッド") →
       wdistLt (pairDist mockA.config ((255 : ℤ), 0, 0) ("Red系", "レッド"))
         (pairDist mockA.config ((255 : ℤ), 0, 0) q) = true) ∧
     match_color_to_category mockAPerm ((255 : ℤ), 0, 0) =
       match_color_to_category mockA ((255 : ℤ), 0, 0) ∧
     match_color_to_category mockA ((255 : ℤ), 0, 0) = some "Red系") ∧
    ((∀ (j : ℕ) (hj : j < (pairsOf mockA.color_categories).length),
        wdistLt (pairDist mockA.config ((255 : ℤ), 0, 0)
            ((pairsOf mockA.color_categories).get ⟨j, hj⟩))
          (pairDist mockA.config ((255 : ℤ), 0, 0)
            ((pairsOf mockA.color_categories).get ⟨0, by decide⟩)) = false) ∧
     match_color_to_category mockA ((255 : ℤ), 0, 0) =
       some ((pairsOf mockA.color_categories).get ⟨0, by decide⟩).1) := by
  have hlt : ∀ q ∈ pairsOf mockA.color_categories, q ≠ ("Red系", "レッド") →
      wdistLt (pairDist mockA.config ((255 : ℤ), 0, 0) ("Red系", "レッド"))
        (pairDist mockA.config ((255 : ℤ), 0, 0) q) = true := by
    with_unfolding_all decide
  have hmin : ∀ (j : ℕ) (hj : j < (pairsOf mockA.color_categories).length),
      wdistLt (pairDist mockA.config ((255 : ℤ), 0, 0)
          ((pairsOf mockA.color_categories).get ⟨j, hj⟩))
        (pairDist mockA.config ((255 : ℤ), 0, 0)
          ((pairsOf mockA.color_categories).get ⟨0, by decide⟩)) = false := by
    with_unfolding_all decide
  have hfirst : ∀ (j : ℕ) (hj : j < (pairsOf mockA.color_categories).length), j < 0 →
      wdistLt (pairDist mockA.config ((255 : ℤ), 0, 0)
          ((pairsOf mockA.color_categories).get ⟨0, by decide⟩))
        (pairDist mockA.config ((255 : ℤ), 0, 0)
          ((pairsOf mockA.color_categories).get ⟨j, hj⟩)) = true :=
    fun j hj hj0 => absurd hj0 (by omega)
  have hmain := match_order_independent_and_first_min.1 mockA mockAPerm
    ((255 : ℤ), 0, 0) ("Red系", "レッド") rfl (by decide) (by decide) (by decide) hlt
  have htie := match_order_independent_and_first_min.2 mockA ((255 : ℤ), 0, 0)
    0 (by decide) hmin hfirst
  exact ⟨⟨rfl, by decide, by decide, by decide, hlt, hmain.1, hmain.2⟩, ⟨hmin, htie⟩⟩

end ColorAnalyzer
